import Mathlib

/-!
Shallow embedding of the SoS task-execution core, from
`src/sos/task_executor.py` (`_execute_task`, `collect_task_result`, the
master-task aggregation loop) and `src/sos/executor_utils.py`
(`validate_step_sig`), together with theorems settling the specification
claims.  External collaborators of the engine (the Signature Store
primitives, the target content-signature operation, the script runner that
executes the task body) are not part of the two source files; they are
modelled from the specification as opaque parameters or oracle outcomes,
as marked in the doc comments below.  Everything else follows the Python
control flow line by line.
-/

/-! ## String utilities mirroring the Python primitives used by the source -/

/-- First-occurrence split: the text before the first occurrence of `sep`
and the text after it, or `none` when `sep` does not occur.  Mirrors
CPython scanning left to right with non-overlapping matches. -/
def findSplit (sep : List Char) : List Char → Option (List Char × List Char)
  | [] => none
  | c :: rest =>
    if sep.isPrefixOf (c :: rest) then some ([], (c :: rest).drop sep.length)
    else
      match findSplit sep rest with
      | some (pre, post) => some (c :: pre, post)
      | none => none

/-- Fuelled worker for `pySplitStr`; the fuel is the length of the input,
which bounds the number of occurrences of a non-empty separator. -/
def pySplitAux (sep : List Char) : Nat → List Char → List (List Char)
  | 0, s => [s]
  | fuel + 1, s =>
    match findSplit sep s with
    | none => [s]
    | some (pre, post) => pre :: pySplitAux sep fuel post

/-- Python `s.split(sep)` for a non-empty separator string: if `sep` does
not occur the result is `[s]`; otherwise `s` is cut at every
(non-overlapping) occurrence.  CPython raises on an empty separator; the
model is only applied with non-empty separators. -/
def pySplitStr (s sep : String) : List String :=
  if sep.toList.isEmpty then [s]
  else (pySplitAux sep.toList s.toList.length s.toList).map (fun cs => String.mk cs)

/-- Python `sep.join(xs)`. -/
def joinSep (sep : String) : List String → String
  | [] => ""
  | [x] => x
  | x :: y :: rest => x ++ sep ++ joinSep sep (y :: rest)

/-- Keys of an `OrderedDict` built by repeated insertion: insertion order
with later duplicates dropped (lines 444-448 of `task_executor.py`). -/
def dedupKeepFirst (seen : List String) : List String → List String
  | [] => []
  | x :: rest =>
    if seen.contains x then dedupKeepFirst seen rest
    else x :: dedupKeepFirst (x :: seen) rest

/-- Python `d[k]` lookup on an association list standing for a `dict`
(insertion ordered, keys unique by construction through `setKey`). -/
def lookupKey {α β : Type} [DecidableEq α] : List (α × β) → α → Option β
  | [], _ => none
  | (k', v) :: rest, k => if k' = k then some v else lookupKey rest k

/-- Python `d[k] = v`: replace in place when the key exists, else append. -/
def setKey {α β : Type} [DecidableEq α] : List (α × β) → α → β → List (α × β)
  | [], k, v => [(k, v)]
  | (k', v') :: rest, k, v =>
    if k' = k then (k', v) :: rest else (k', v') :: setKey rest k v

/-- Python `d.update(m)` for dict `m`: set every pair of `m` in order. -/
def updateAll {α β : Type} [DecidableEq α] (acc m : List (α × β)) : List (α × β) :=
  m.foldl (fun a kv => setKey a kv.1 kv.2) acc

/-- Python `'PATH' in key`: substring occurrence test (line 443). -/
def containsPATH (key : String) : Bool :=
  (findSplit "PATH".toList key.toList).isSome

/-- The merge of a configured PATH-like value with the inherited value,
lines 444-449 of `task_executor.py`: an OrderedDict is filled first with
`value.split(os.pathsep)` and then with `value.split(os.environ[key])` —
note that the second loop splits the configured value again, using the
whole inherited string as the separator, rather than splitting the
inherited value on `os.pathsep` — and the keys are joined with the path
separator. -/
def mergePathValue (value inherited : String) : String :=
  joinSep ":" (dedupKeepFirst [] (pySplitStr value ":" ++ pySplitStr value inherited))

/-! ## Data model -/

/-- A target reference (`file_target` / `sos_step` / other target classes
of the Target Abstraction).  `file` covers both plain strings and
`file_target` objects in the Python source; `other` covers the remaining
target classes, which expose the same `target_exists` / `remove_sig`
operations. -/
inductive Target
  | file (path : String)
  | sosStep (name : String)
  | other (name : String)
  deriving DecidableEq, Repr

def targetName : Target → String
  | .file p => p
  | .sosStep n => n
  | .other n => n

/-- Modelled from the spec: the content-signature operation of the Target
Abstraction (`file_target(x).target_signature()`, implemented outside the
two source files).  An opaque digest-former; claims only depend on it
being a fixed function of the path. -/
def target_signature (p : String) : String := "md5:" ++ p

/-- The `_output` value of the task dictionary: either a still
undetermined output expression or a determined list of targets
(`sos_targets.determined()`). -/
inductive OutputState
  | undetermined (expr : String)
  | listed (targets : List Target)
  deriving DecidableEq, Repr

/-- The slice of `params.sos_dict` / `env.sos_dict` that the two source
files read: `_input`, `_output`, `_depends` (each possibly Python `None`),
`__signature_vars__`, the live variable bindings used by shared-variable
collection, `_index`, and the bookkeeping keys `start_time` / `peak_cpu`
/ `peak_mem` written by the executor and the monitor. -/
structure SosDict where
  input : Option (List Target) := some []
  output : Option OutputState := some (.listed [])
  depends : Option (List Target) := some []
  sigVars : List String := []
  ctx : List (String × String) := []
  index : Int := 0
  startTime : Option Nat := none
  peakCpu : Option Nat := none
  peakMem : Option Nat := none
  deriving Repr

/-- The `shared` runtime option: a single name, a mapping of name to
expression, a sequence mixing both, or an unacceptable value. -/
inductive SharedItem
  | str (s : String)
  | map (m : List (String × String))
  | invalid
  deriving DecidableEq, Repr

inductive SharedSpec
  | str (s : String)
  | map (m : List (String × String))
  | seq (items : List SharedItem)
  | invalid
  deriving DecidableEq, Repr

/-- The `prepend_path` runtime option (lines 452-461). -/
inductive PrependPath
  | absent
  | str (s : String)
  | seq (xs : List String)
  | invalid
  deriving DecidableEq, Repr

/-- The `_runtime` options read by `_execute_task` and
`collect_task_result`.  A task dictionary without a `_runtime` key gets an
empty `_runtime` (line 280-281), which this structure's defaults model. -/
structure RuntimeOpts where
  curDir : Option String := none
  workdir : Option String := none
  envVars : List (String × String) := []
  prependPath : PrependPath := .absent
  shared : Option SharedSpec := none
  deriving Repr

/-- Phase markers used to state ordering claims about one invocation. -/
inductive Event
  | stageEnv
  | cacheDecision
  | verifyPrecond
  | execBody
  deriving DecidableEq, Repr, BEq

/-- Index of the first occurrence of an event in a trace. -/
def idxOf (e : Event) : List Event → Nat
  | [] => 0
  | x :: rest => if x = e then 0 else idxOf e rest + 1

/-- The observable machine state one invocation runs against: working
directory, existing directories, existing targets, process environment,
the Signature Store's lock and record state for this model (fingerprints
currently locked; fingerprints written), removed stale signatures, the
emitted phase trace, the log, and an external clock reading. -/
structure World where
  cwd : String := "/"
  dirs : List String := []
  existing : List String := []
  environ : List (String × String) := []
  lockedFps : List String := []
  written : List String := []
  removedSigs : List String := []
  events : List Event := []
  log : List String := []
  clock : Nat := 0
  deriving Repr

/-- Outcome of running the task body (`SoS_exec(task)` at line 464).  The
script runner is an external collaborator (spec section 6); its outcome is
an oracle input to the model, classified the way the except clauses at
lines 471-508 classify it. -/
inductive BodyOutcome
  | ok
  | stop (msg : Option String)
  | interrupt
  | calledProcess (rc : Int) (stderr : String)
  | raised (errorClass : String) (detail : String)
  deriving Repr

/-- The resolved values a matching signature record supplies
(`matched['input']`, `['output']`, `['depends']`, `['vars']`). -/
structure Matched where
  input : List Target := []
  output : List Target := []
  depends : List Target := []
  vars : List (String × String) := []
  deriving DecidableEq, Repr

/-- Modelled from the spec: result of `sig.validate()` (section 4.1) -
a dict of resolved values on a match, a reason string on a mismatch.  The
`RuntimeInfo` implementation lives outside the two source files, so the
outcome is an oracle input. -/
inductive ValidateOutcome
  | matched (m : Matched)
  | mismatch (reason : String)
  deriving Repr

/-- Oracle for every externally decided outcome of one invocation:
signature validation, the success of `sig.write(rebuild=True)`, the body
outcome, the variable bindings after the body, the value of `SoS_eval` on
shared-variable expressions, and the re-evaluated undetermined outputs. -/
structure Oracle where
  validate : ValidateOutcome := .mismatch "no record"
  buildWriteOk : Bool := false
  sigContent : Matched := {}
  body : BodyOutcome := .ok
  ctxAfter : List (String × String) := []
  evalFn : String → String := fun s => s
  resolvedOutputs : List String := []

/-- One task definition as `_execute_task` sees it after loading. -/
structure TaskConfig where
  taskId : String := "t"
  task : String := ""
  sigMode : String := "default"
  sosDict : SosDict := {}
  runtime : RuntimeOpts := {}
  subtask : Bool := false

/-- Python exceptions that cross the boundaries of the try block of
`_execute_task` (and the ones the function itself raises to its caller). -/
inductive PyExc
  | stopSig (msg : Option String)
  | kbInterrupt
  | cpe (rc : Int) (stderr : String)
  | generic (errorClass : String) (detail : String)
  deriving DecidableEq, Repr

/-- The failure payload stored under the `exception` key of a result. -/
structure ErrPayload where
  errorClass : String
  detail : String
  deriving DecidableEq, Repr

/-- A value stored under the `input` / `output` / `depends` key of a task
result: the stop path stores empty Python lists, the normal path stores
digest maps. -/
inductive RField
  | emptyList
  | digests (m : List (String × String))
  deriving DecidableEq, Repr

/-- One task result dict.  A field holding `none` models the key being
absent from the Python dict on that outcome path. -/
structure TaskResult where
  ret_code : Int
  task : String
  input : Option RField := none
  output : Option RField := none
  depends : Option RField := none
  shared : Option (List (Int × List (String × String))) := none
  skipped : Option Bool := none
  exception : Option ErrPayload := none
  start_time : Option Nat := none
  peak_cpu : Option Nat := none
  peak_mem : Option Nat := none
  end_time : Option Nat := none
  deriving DecidableEq, Repr

/-! ## Shared-variable collection (`collect_task_result`, lines 25-98) -/

abbrev Ctx := List (String × String)

def ctxHas (ctx : Ctx) (k : String) : Bool := (lookupKey ctx k).isSome

def ctxGet (ctx : Ctx) (k : String) : String := (lookupKey ctx k).getD ""

/-- Failure of result collection: `ValueError('Unavailable shared variable
{var} after the completion of task {task_id}')` or the shape error of
lines 59-64. -/
inductive CollectErr
  | unavailable (var : String) (tid : String)
  | badSpec
  deriving DecidableEq, Repr

/-- Line 30 tests `vars not in env.sos_dict`, where `vars` is the Python
builtin function, not the string held by `svars`: a string-keyed task
dictionary never contains the builtin function object as a key, so the
test is true for every context this engine builds and the branch raises
unconditionally.  The definition records that membership test. -/
def pyVarsKeyInCtx (_ctx : Ctx) : Bool := false

/-- Mapping entries of the `shared` option (lines 34-41 and 51-58): for
each `(var, val)` pair, when `var != val` the expression is evaluated and
assigned to `var` first; then `var` must be a key of the context or a
`ValueError` naming `var` is raised; finally the value is copied into the
collected map.  Threads the evolving context and the collected map. -/
def collectMapEntries (tid : String) (evalFn : String → String) :
    List (String × String) → Ctx → List (String × String) →
    Except CollectErr (Ctx × List (String × String))
  | [], ctx, acc => .ok (ctx, acc)
  | (var, val) :: rest, ctx, acc =>
    if var = val then
      if ctxHas ctx var then
        collectMapEntries tid evalFn rest ctx (setKey acc var (ctxGet ctx var))
      else .error (.unavailable var tid)
    else
      if ctxHas (setKey ctx var (evalFn val)) var then
        collectMapEntries tid evalFn rest (setKey ctx var (evalFn val))
          (setKey acc var (ctxGet (setKey ctx var (evalFn val)) var))
      else .error (.unavailable var tid)

/-- Sequence form of the `shared` option (lines 42-61): string items are
looked up directly, mapping items behave like the mapping form, any other
item raises the shape error. -/
def collectSeqItems (tid : String) (evalFn : String → String) :
    List SharedItem → Ctx → List (String × String) →
    Except CollectErr (List (String × String))
  | [], _, acc => .ok acc
  | .str s :: rest, ctx, acc =>
    if ctxHas ctx s then collectSeqItems tid evalFn rest ctx (setKey acc s (ctxGet ctx s))
    else .error (.unavailable s tid)
  | .map m :: rest, ctx, acc =>
    match collectMapEntries tid evalFn m ctx acc with
    | .error e => .error e
    | .ok (ctx2, acc2) => collectSeqItems tid evalFn rest ctx2 acc2
  | .invalid :: _, _, _ => .error .badSpec

/-- The `shared` block of `collect_task_result` (lines 26-66). -/
def collectShared (tid : String) (evalFn : String → String) (spec : SharedSpec)
    (ctx : Ctx) : Except CollectErr (List (String × String)) :=
  match spec with
  | .str s =>
    if pyVarsKeyInCtx ctx then .ok [(s, ctxGet ctx s)]
    else .error (.unavailable s tid)
  | .map m =>
    match collectMapEntries tid evalFn m ctx [] with
    | .error e => .error e
    | .ok (_, acc) => .ok acc
  | .seq items => collectSeqItems tid evalFn items ctx []
  | .invalid => .error .badSpec

/-- Digest map over the file targets of a target list: the comprehensions
at lines 86-92 keep only `str` / `file_target` entries. -/
def digestsOf (ts : List Target) : List (String × String) :=
  ts.filterMap (fun t =>
    match t with
    | .file p => some (p, target_signature p)
    | _ => none)

/-- `collect_task_result(task_id, sos_dict, skipped)` (lines 25-98).
`envd` is `env.sos_dict` (possibly holding values adopted from a matching
signature), `orig` is the `sos_dict` loaded from the task parameters; the
output block consults both exactly as lines 69-87 do, and the input and
depends digests require both dicts to hold a non-`None` value (lines
89-92).  Only the shared block can raise. -/
def collect_task_result (tid : String) (envd orig : SosDict) (rt : RuntimeOpts)
    (orl : Oracle) (clock : Nat) (skipped : Bool) : Except CollectErr TaskResult :=
  let sharedRes : Except CollectErr (List (String × String)) :=
    match rt.shared with
    | none => .ok []
    | some spec => collectShared tid orl.evalFn spec envd.ctx
  match sharedRes with
  | .error e => .error e
  | .ok shared =>
    let output : List (String × String) :=
      match envd.output with
      | none => []
      | some (.undetermined _) =>
        orl.resolvedOutputs.map (fun x => (x, target_signature x))
      | some (.listed _) =>
        match orig.output with
        | none => []
        | some (.listed xs) => digestsOf xs
        | some (.undetermined _) => []
    let inputD : List (String × String) :=
      match envd.input, orig.input with
      | none, _ => []
      | _, none => []
      | some _, some xs => digestsOf xs
    let dependsD : List (String × String) :=
      match envd.depends, orig.depends with
      | none, _ => []
      | _, none => []
      | some _, some xs => digestsOf xs
    .ok { ret_code := 0, task := tid,
          input := some (.digests inputD),
          output := some (.digests output),
          depends := some (.digests dependsD),
          shared := some [(envd.index, shared)],
          skipped := some skipped,
          start_time := orig.startTime,
          peak_cpu := some (orig.peakCpu.getD 0),
          peak_mem := some (orig.peakMem.getD 0),
          end_time := some clock }

/-- Collection errors escape `_execute_task` as `ValueError`s (the calls
at lines 374 and 524 are outside the try block). -/
def wrapCollect (r : Except CollectErr TaskResult) : Except PyExc TaskResult :=
  match r with
  | .ok res => .ok res
  | .error (.unavailable v tid) =>
    .error (.generic "ValueError"
      ("Unavailable shared variable " ++ v ++ " after the completion of task " ++ tid))
  | .error .badSpec =>
    .error (.generic "ValueError"
      "Option shared should be a string, a mapping of expression, or a list of string or mappings")

/-! ## The task-execution state machine (`_execute_task`, lines 140-524) -/

/-- Modelled from the spec: the Fingerprint / Signature Id (section 3).
The source derives it in `RuntimeInfo` (outside the two source files) from
`textMD5('#task\n' + tokens)` together with the target sets; the model
keeps the distinguishing `#task` prefix and the body text as the cache
key, which is all the claims depend on. -/
def fingerprint (task : String) : String := "#task:" ++ task

/-- The mode dispatch of the caching decision, lines 332-370, evaluated
after `sig.lock()` (the `ignore` mode is handled before a signature is
created and never reaches this dispatch). -/
inductive CacheDecision
  | skip (m : Matched)
  | skipBuild
  | proceed
  | raiseErr (msg : String)
  deriving Repr

def cacheDecide (cfg : TaskConfig) (orl : Oracle) : CacheDecision :=
  if cfg.sigMode = "default" then
    match orl.validate with
    | .matched m => .skip m
    | .mismatch _ => .proceed
  else if cfg.sigMode = "assert" then
    match orl.validate with
    | .matched m => .skip m
    | .mismatch r => .raiseErr ("Signature mismatch: " ++ r)
  else if cfg.sigMode = "build" then
    if orl.buildWriteOk then .skipBuild else .proceed
  else if cfg.sigMode = "force" then .proceed
  else .raiseErr ("Unrecognized signature mode " ++ cfg.sigMode)

def decisionProceeds : CacheDecision → Bool
  | .skip _ => false
  | .skipBuild => false
  | .proceed => true
  | .raiseErr _ => false

/-- Whether the invocation reaches the try block at line 382 (it does not
when the caching decision skips the task or raises). -/
def entersTry (cfg : TaskConfig) (orl : Oracle) : Bool :=
  if cfg.sigMode = "ignore" then true
  else decisionProceeds (cacheDecide cfg orl)

/-- Value adoption on a signature match (lines 338-341 and 350-353):
`_input`, `_depends` and `_output` are replaced by the resolved values and
the variable snapshot is merged into the live bindings. -/
def applyAdopt (sd : SosDict) (m : Matched) : SosDict :=
  { sd with input := some m.input, depends := some m.depends,
            output := some (.listed m.output),
            ctx := updateAll sd.ctx m.vars }

/-- The `cur_dir` staging step, lines 384-398: create the directory when
missing, then change into it.  The source swallows creation failures
(lines 391-396); directory operations themselves are modelled as always
succeeding, so the swallowed branch is unreachable in the model. -/
def applyCurDir (rt : RuntimeOpts) (w : World) : World :=
  match rt.curDir with
  | none => w
  | some d =>
    { w with cwd := d,
             dirs := if w.dirs.contains d then w.dirs else d :: w.dirs }

/-- The precondition scan of lines 402-417 over `_input` then `_depends`
(each taken as a list only when it is one): the first target that does not
exist on this host, skipping `sos_step` targets, triggers
`remove_sig()` and `raise UnknownTarget`. -/
def firstMissing (sd : SosDict) (existing : List String) : Option Target :=
  ((sd.input.getD []) ++ (sd.depends.getD [])).find? (fun t =>
    match t with
    | .file p => !(existing.contains p)
    | .sosStep _ => false
    | .other n => !(existing.contains n))

/-- Python `os.path.dirname`-style parent of a path, used for the output
parent-directory creation of lines 421-426. -/
def parentDir (p : String) : String :=
  joinSep "/" (pySplitStr p "/").dropLast

/-- Output parent-directory creation (lines 421-426): applies only when
the outputs are determined. -/
def mkOutputDirs (envd : SosDict) (w : World) : World :=
  match envd.output with
  | some (.listed ts) =>
    { w with dirs := (ts.filterMap (fun t =>
        match t with
        | .file p => if w.dirs.contains (parentDir p) then none else some (parentDir p)
        | _ => none)) ++ w.dirs }
  | _ => w

/-- The `workdir` staging step, lines 429-437: create the directory when
missing (a creation failure raises, but directory operations are modelled
as always succeeding) and change into it. -/
def applyWorkdir (rt : RuntimeOpts) (w : World) : World :=
  match rt.workdir with
  | none => w
  | some d =>
    { w with cwd := d,
             dirs := if w.dirs.contains d then w.dirs else d :: w.dirs }

/-- The environment-variable override loop, lines 441-451: a PATH-like key
already present in the inherited environment is merged through
`mergePathValue`, every other key is overwritten. -/
def applyOverrides (rt : RuntimeOpts) (environ : List (String × String)) :
    List (String × String) :=
  rt.envVars.foldl (fun en kv =>
    match lookupKey en kv.1 with
    | some inherited =>
      if containsPATH kv.1 then setKey en kv.1 (mergePathValue kv.2 inherited)
      else setKey en kv.1 kv.2
    | none => setKey en kv.1 kv.2) environ

/-- The `prepend_path` step, lines 452-461: a string or sequence is joined
ahead of `os.environ['PATH']` (a `KeyError` if PATH is unset), anything
else raises a `ValueError`. -/
def applyPrepend (rt : RuntimeOpts) (environ : List (String × String)) :
    Except PyExc (List (String × String)) :=
  match rt.prependPath with
  | .absent => .ok environ
  | .str s =>
    match lookupKey environ "PATH" with
    | some old => .ok (setKey environ "PATH" (s ++ ":" ++ old))
    | none => .error (.generic "KeyError" "PATH")
  | .seq xs =>
    match lookupKey environ "PATH" with
    | some old => .ok (setKey environ "PATH" (joinSep ":" xs ++ ":" ++ old))
    | none => .error (.generic "KeyError" "PATH")
  | .invalid => .error (.generic "ValueError" "Unacceptable input for option prepend_path")

/-- The `SoS_exec(task)` call at line 464: on success the body has
mutated the live bindings (externally, hence the oracle's `ctxAfter`); any
other outcome is the Python exception the except clauses at lines 471-508
will classify. -/
def classifyBody (envd : SosDict) (ctxAfter : Ctx) (w : World) :
    BodyOutcome → Except PyExc SosDict × World
  | .ok => (.ok { envd with ctx := ctxAfter }, w)
  | .stop m => (.error (.stopSig m), w)
  | .interrupt => (.error .kbInterrupt, w)
  | .calledProcess rc stderr => (.error (.cpe rc stderr), w)
  | .raised cls detail => (.error (.generic cls detail), w)

/-- Continuation after the environment-variable steps: a `prepend_path`
failure escapes (with the override mutations already applied to the
process environment), otherwise the body runs. -/
def afterEnvOps (orl : Oracle) (envd : SosDict) (w : World) :
    Except PyExc (List (String × String)) → List (String × String) →
    Except PyExc SosDict × World
  | .error e, en1 => (.error e, { w with environ := en1 })
  | .ok en2, _ =>
    classifyBody envd orl.ctxAfter
      { w with environ := en2, events := w.events ++ [Event.execBody] } orl.body

/-- Continuation after the precondition scan of lines 402-417: the first
missing target triggers `remove_sig()` and `raise UnknownTarget`;
otherwise output directories are created (lines 421-426), the `workdir`
step runs (429-437) and the environment steps follow (440-461). -/
def afterPrecond (cfg : TaskConfig) (orl : Oracle) (envd : SosDict) (w : World) :
    Option Target → Except PyExc SosDict × World
  | some t =>
    (.error (.generic "UnknownTarget" (targetName t)),
     { w with removedSigs := targetName t :: w.removedSigs })
  | none =>
    let w := mkOutputDirs envd w
    let w := applyWorkdir cfg.runtime w
    let en1 := applyOverrides cfg.runtime w.environ
    afterEnvOps orl envd w (applyPrepend cfg.runtime en1) en1

/-- The body of the try block after the `cur_dir` step (lines 402-469):
precondition scan over the loaded (original) dictionary, then the staging
continuations, then `SoS_exec(task)`. -/
def runTry (cfg : TaskConfig) (orl : Oracle) (envd orig : SosDict) (w : World) :
    Except PyExc SosDict × World :=
  let w := { w with events := w.events ++ [Event.verifyPrecond] }
  afterPrecond cfg orl envd w (firstMissing orig w.existing)

/-- The result returned on a cooperative stop (lines 471-476): return code
0, empty list-valued input/output/depends, an empty shared dict, and no
`skipped` or `exception` key. -/
def stopResult (tid : String) : TaskResult :=
  { ret_code := 0, task := tid, input := some .emptyList,
    output := some .emptyList, depends := some .emptyList, shared := some [] }

/-- The except clauses of lines 471-508, run after the finally block has
restored the working directory: a stop is a success with empty outputs, a
keyboard interrupt is re-raised, a `CalledProcessError` carries its return
code and stderr, and every other exception becomes a return-code-1 result
carrying the exception payload. -/
def handleExc (tid : String) (e : PyExc) (w : World) : Except PyExc TaskResult × World :=
  match e with
  | .stopSig msg =>
    let w := match msg with
      | some s => { w with log := w.log ++ [tid ++ " stopped: " ++ s] }
      | none => w
    (.ok (stopResult tid), w)
  | .kbInterrupt => (.error .kbInterrupt, { w with log := w.log ++ [tid ++ " interrupted"] })
  | .cpe rc stderr =>
    (.ok { ret_code := rc, task := tid, shared := some [],
           exception := some { errorClass := "RuntimeError", detail := stderr } }, w)
  | .generic cls detail =>
    (.ok { ret_code := 1, task := tid, shared := some [],
           exception := some { errorClass := cls, detail := detail } },
     { w with log := w.log ++ [tid ++ " failed: " ++ cls ++ " " ++ detail] })

/-- The finally block of lines 509-516 plus the post-try lines 518-524,
applied to the outcome of the try block: an exception goes to the except
clauses after the working directory is restored to the line-400 capture; a
normal completion restores the directory, writes and releases the
signature (when one was created), and collects the result. -/
def afterTry (cfg : TaskConfig) (orl : Oracle) (fp : Option String) (orig : SosDict)
    (origDir : String) : Except PyExc SosDict × World → Except PyExc TaskResult × World
  | (.error e, w2) => handleExc cfg.taskId e { w2 with cwd := origDir }
  | (.ok envd2, w2) =>
    let w3 := { w2 with cwd := origDir }
    let w4 := match fp with
      | some f => { w3 with written := f :: w3.written, lockedFps := w3.lockedFps.erase f }
      | none => w3
    (wrapCollect (collect_task_result cfg.taskId envd2 orig cfg.runtime orl w4.clock false), w4)

def runFrom (cfg : TaskConfig) (orl : Oracle) (fp : Option String)
    (envd : SosDict) (w : World) : Except PyExc TaskResult × World :=
  let orig := if cfg.subtask then cfg.sosDict
              else { cfg.sosDict with startTime := some w.clock }
  let w1 := applyCurDir cfg.runtime w
  afterTry cfg orl fp orig w1.cwd (runTry cfg orl envd orig w1)

/-- `_execute_task` for a non-master task, from the environment staging at
line 304 on: stage the captured dictionary, then - unless the signature
mode is `ignore` - build the signature, lock the fingerprint and evaluate
the caching decision (lines 320-374); a skip collects the result with the
skip marker immediately, `build`-mode synthesis also writes the record,
an `assert` mismatch or an unrecognized mode raises, and otherwise the
try block runs.  The first component re-raises uncaught exceptions
(interrupt, the pre-try raises, and collection errors). -/
def _execute_task (cfg : TaskConfig) (orl : Oracle) (w0 : World) :
    Except PyExc TaskResult × World :=
  let w := { w0 with events := w0.events ++ [Event.stageEnv] }
  if cfg.sigMode = "ignore" then
    runFrom cfg orl none cfg.sosDict w
  else
    let fp := fingerprint cfg.task
    let w := { w with lockedFps := fp :: w.lockedFps,
                      events := w.events ++ [Event.cacheDecision] }
    match cacheDecide cfg orl with
    | .raiseErr msg => (.error (.generic "RuntimeError" msg), w)
    | .skip m =>
      (wrapCollect (collect_task_result cfg.taskId (applyAdopt cfg.sosDict m)
        cfg.sosDict cfg.runtime orl w.clock true), w)
    | .skipBuild =>
      let w := { w with written := fp :: w.written }
      (wrapCollect (collect_task_result cfg.taskId cfg.sosDict cfg.sosDict
        cfg.runtime orl w.clock true), w)
    | .proceed => runFrom cfg orl (some fp) cfg.sosDict w

/-! ## Step-signature validation (`executor_utils.validate_step_sig`, lines 161-202) -/

/-- What `validate_step_sig` hands back to the step executor: an empty
dict (proceed to execute), a dict of resolved values to adopt, a raised
error, or Python `None` (the fall-through of the `build` branch when the
rebuild write fails, lines 186-197). -/
inductive StepSigDecision
  | proceed
  | adopt (m : Matched)
  | raiseErr (msg : String)
  | noneReturn
  deriving Repr

/-- `validate_step_sig(sig)` (lines 161-202).  The second component
records whether `sig.validate()` was consulted at all: in `default` and
`build` modes a step whose signature-relevant variables contain `sos_run`
returns an empty dict without touching the store.  The mode is read from
the configuration and the variables from `env.sos_dict` in the source;
both are passed explicitly here. -/
def validate_step_sig (mode : String) (sigVars : List String) (orl : Oracle) :
    StepSigDecision × Bool :=
  if mode = "default" then
    if sigVars.contains "sos_run" then (.proceed, false)
    else
      match orl.validate with
      | .matched m => (.adopt m, true)
      | .mismatch _ => (.proceed, true)
  else if mode = "assert" then
    match orl.validate with
    | .mismatch r => (.raiseErr ("Signature mismatch: " ++ r), true)
    | .matched m => (.adopt m, true)
  else if mode = "build" then
    if sigVars.contains "sos_run" then (.proceed, false)
    else if orl.buildWriteOk then (.adopt orl.sigContent, false)
    else (.noneReturn, false)
  else if mode = "force" then (.proceed, false)
  else (.raiseErr ("Unrecognized signature mode " ++ mode), false)

/-! ## Master-task aggregation (`_execute_task`, lines 211-244) -/

/-- A key lookup the aggregation loop performs on a sub-task result dict
that does not hold the key (Python `KeyError`). -/
inductive AggErr
  | keyError (key : String)
  deriving DecidableEq, Repr

/-- The aggregate dict initialised at lines 235-236. -/
structure MasterResult where
  ret_code : Int
  output : List (String × String)
  subtasks : List (String × TaskResult)
  shared : List (Int × List (String × String))
  skipped : Bool
  deriving DecidableEq, Repr

/-- What the master branch returns once every sub-task result is in: the
early failure return of lines 217/232 or the aggregate of lines 235-244. -/
inductive MasterOutcome
  | failedSub (exc : ErrPayload) (task : String)
  | aggregated (m : MasterResult)
  deriving DecidableEq, Repr

def masterInit : MasterResult :=
  { ret_code := 0, output := [], subtasks := [], shared := [], skipped := false }

/-- Python `all_res['output'].update(x['output'])`: updating the aggregate
dict with a stop result's empty list is a no-op, updating with a digest
map merges it. -/
def updateOutputField (acc : List (String × String)) : RField → List (String × String)
  | .emptyList => acc
  | .digests m => updateAll acc m

/-- One iteration of the aggregation loop (lines 237-243), reading the
sub-task result keys in source order: `ret_code`, `output`, `shared`,
`skipped`.  A missing key is a `KeyError`. -/
def masterAggStep (acc : MasterResult) (p : String × TaskResult) :
    Except AggErr MasterResult :=
  match p.2.output with
  | none => .error (.keyError "output")
  | some o =>
    match p.2.shared with
    | none => .error (.keyError "shared")
    | some sh =>
      match p.2.skipped with
      | none => .error (.keyError "skipped")
      | some sk =>
        .ok { ret_code := acc.ret_code + p.2.ret_code,
              output := updateOutputField acc.output o,
              subtasks := acc.subtasks ++ [(p.1, p.2)],
              shared := updateAll acc.shared sh,
              skipped := sk }

def masterAggregate (acc : MasterResult) :
    List (String × TaskResult) → Except AggErr MasterResult
  | [] => .ok acc
  | p :: rest =>
    match masterAggStep acc p with
    | .error e => .error e
    | .ok acc2 => masterAggregate acc2 rest

/-- The result-collection part of the master branch (lines 211-217 or
226-232, then 233-244): if any sub-task result carries an `exception` key
the master returns a failure naming that exception, otherwise the results
are folded over `zip(task_stack, results)`.  Sub-task dispatch itself
(worker pool, output streaming) is process-level concurrency outside the
shallow embedding; the aggregation is modelled over the gathered result
list. -/
def masterCollect (tid : String) (stack : List String)
    (results : List TaskResult) : Except AggErr MasterOutcome :=
  match results.find? (fun r => r.exception.isSome) with
  | some r =>
    .ok (.failedSub (r.exception.getD { errorClass := "", detail := "" }) tid)
  | none =>
    match masterAggregate masterInit (stack.zip results) with
    | .error e => .error e
    | .ok m => .ok (.aggregated m)

/-! ## Declared names of a `shared` option, for stating claim C5 -/

/-- Names an entry list looks up without assigning (entries whose key
equals its value, which the source treats as plain lookups). -/
def entryLookupNames (m : List (String × String)) : List String :=
  (m.filter (fun p => p.1 = p.2)).map (fun p => p.1)

/-- Names an entry list assigns by evaluating an expression first. -/
def entryAssignedNames (m : List (String × String)) : List String :=
  (m.filter (fun p => ¬ p.1 = p.2)).map (fun p => p.1)

def itemLookupNames : SharedItem → List String
  | .str s => [s]
  | .map m => entryLookupNames m
  | .invalid => []

def itemAssignedNames : SharedItem → List String
  | .str _ => []
  | .map m => entryAssignedNames m
  | .invalid => []

def lookupNames : SharedSpec → List String
  | .str s => [s]
  | .map m => entryLookupNames m
  | .seq items => (items.map itemLookupNames).flatten
  | .invalid => []

def assignedNames : SharedSpec → List String
  | .str _ => []
  | .map m => entryAssignedNames m
  | .seq items => (items.map itemAssignedNames).flatten
  | .invalid => []

/-- A `shared` value of one of the three documented forms (no invalid
items). -/
def specWF : SharedSpec → Bool
  | .str _ => true
  | .map _ => true
  | .seq items => items.all (fun it =>
      match it with
      | .invalid => false
      | _ => true)
  | .invalid => false

/-! ## Concrete instances used by the claim theorems -/

def cfgSkipLeak : TaskConfig := { taskId := "t1", task := "b1", sigMode := "default" }

def orlMatched : Oracle := { validate := .matched {} }

def cfgOrder : TaskConfig := { taskId := "t2", task := "b2", sigMode := "default" }

def orlMismatch : Oracle := { validate := .mismatch "no record" }

def cfgPathMerge : TaskConfig :=
  { taskId := "t3", sigMode := "ignore",
    runtime := { envVars := [("PATH", "/opt/tool")] } }

def wPathMerge : World := { environ := [("PATH", "/usr/bin:/bin")] }

def cfgCurDir : TaskConfig :=
  { taskId := "t4", sigMode := "ignore", runtime := { curDir := some "/cd" } }

def wHome : World := { cwd := "/home", dirs := ["/cd"] }

def cfgSosRun : TaskConfig :=
  { taskId := "t6", task := "b6", sigMode := "default",
    sosDict := { sigVars := ["sos_run"] } }

def cfgDivZero : TaskConfig := { taskId := "t9", task := "x = 1/0", sigMode := "default" }

def orlDivZero : Oracle :=
  { validate := .mismatch "no record",
    body := .raised "ZeroDivisionError" "division by zero" }

def cfgStopSub : TaskConfig := { taskId := "sub2", sigMode := "ignore" }

def orlStop : Oracle := { body := .stop (some "halt now") }

/-- A well-formed sub-task result carrying every key the aggregation loop
reads. -/
def aggOkRes : TaskResult :=
  { ret_code := 0, task := "sub1", output := some (.digests []),
    shared := some [], skipped := some true }

/-! ## Claim theorems: concrete scenarios -/

/-- Claim C1 (code bug): the fingerprint lock is not released on every
outcome path.  On a default-mode skip the invocation returns its result
while the fingerprint is still locked: `sig.release()` (line 520) is
reached only when the body completes normally, and the skip return at
line 374 precedes it.  The same holds for every except-clause return. -/
theorem lock_not_released_on_skip_path :
    (_execute_task cfgSkipLeak orlMatched {}).2.lockedFps = [fingerprint "b1"]
    ∧ (_execute_task cfgSkipLeak orlMatched {}).1 =
        .ok { ret_code := 0, task := "t1", input := some (.digests []),
              output := some (.digests []), depends := some (.digests []),
              shared := some [(0, [])], skipped := some true,
              peak_cpu := some 0, peak_mem := some 0, end_time := some 0 } :=
  ⟨rfl, rfl⟩

/-- Claim C2 (counterexample): in a default-mode run that misses the cache
and executes, the caching decision precedes precondition verification, so
the claimed order (verification before caching) fails. -/
theorem precondition_after_caching_cex :
    (_execute_task cfgOrder orlMismatch {}).2.events =
      [Event.stageEnv, Event.cacheDecision, Event.verifyPrecond, Event.execBody]
    ∧ ¬ idxOf Event.verifyPrecond (_execute_task cfgOrder orlMismatch {}).2.events
        < idxOf Event.cacheDecision (_execute_task cfgOrder orlMismatch {}).2.events :=
  ⟨rfl, by decide⟩

/-- Claim C3 (code bug): an override of a PATH-like variable that is
already inherited overwrites it instead of prepending: the configured
entry list replaces the inherited entries, losing them, because line 447
splits the configured value using the whole inherited string as the
separator. -/
theorem path_override_drops_inherited :
    mergePathValue "/opt/tool" "/usr/bin:/bin" = "/opt/tool"
    ∧ (_execute_task cfgPathMerge {} wPathMerge).2.environ = [("PATH", "/opt/tool")]
    ∧ ¬ "/usr/bin" ∈ pySplitStr (mergePathValue "/opt/tool" "/usr/bin:/bin") ":" := by
  decide

/-- Claim C4 (counterexample): with a configured `cur_dir` differing from
the starting directory, the invocation returns with the working directory
equal to `cur_dir`, not to the pre-staging directory: `orig_dir` is
captured at line 400, after the `cur_dir` change of lines 384-398. -/
theorem cwd_not_restored_cex :
    wHome.cwd = "/home"
    ∧ (_execute_task cfgCurDir {} wHome).2.cwd = "/cd"
    ∧ ("/cd" : String) ≠ "/home" := by
  decide

/-- Claim C6 (counterexample): the task-execution path has no `sos_run`
guard: a task whose signature-relevant variables contain `sos_run` is
validated in default mode and skipped when the record matches (lines
333-344 of `task_executor.py`). -/
theorem sos_run_task_skipped_cex :
    cfgSosRun.sosDict.sigVars.contains "sos_run" = true
    ∧ (_execute_task cfgSosRun orlMatched {}).1 =
        .ok { ret_code := 0, task := "t6", input := some (.digests []),
              output := some (.digests []), depends := some (.digests []),
              shared := some [(0, [])], skipped := some true,
              peak_cpu := some 0, peak_mem := some 0, end_time := some 0 } :=
  ⟨rfl, rfl⟩

/-- Claim C9: the `x = 1/0` scenario: with default mode, no prior record
and a body raising `ZeroDivisionError`, the invocation returns a result
with return code 1 whose exception payload carries the division error
kind, and nothing is written to the Signature Store. -/
theorem divzero_failure_and_no_record :
    (_execute_task cfgDivZero orlDivZero {}).1 =
      .ok { ret_code := 1, task := "t9", shared := some [],
            exception := some { errorClass := "ZeroDivisionError",
                                detail := "division by zero" } }
    ∧ (_execute_task cfgDivZero orlDivZero {}).2.written = [] :=
  ⟨rfl, rfl⟩

/-- Claim C10: a stopped sub-task's result holds empty lists under
`input` / `output` / `depends` and no `skipped` key at all, and the master
aggregation loop, which reads `skipped` from every sub-task result, fails
with a `KeyError` on it. -/
theorem stop_result_breaks_aggregation :
    (_execute_task cfgStopSub orlStop {}).1 = .ok (stopResult "sub2")
    ∧ (stopResult "sub2").skipped = none
    ∧ (stopResult "sub2").input = some .emptyList
    ∧ (stopResult "sub2").output = some .emptyList
    ∧ (stopResult "sub2").depends = some .emptyList
    ∧ masterCollect "mst" ["sub1", "sub2"] [aggOkRes, stopResult "sub2"]
        = .error (.keyError "skipped") :=
  ⟨rfl, rfl, rfl, rfl, rfl, rfl⟩

/-! ## Preservation lemmas for the staging helpers -/

theorem applyCurDir_cwd (rt : RuntimeOpts) (w : World) :
    (applyCurDir rt w).cwd = rt.curDir.getD w.cwd := by
  unfold applyCurDir
  rcases rt.curDir with _ | d <;> rfl

theorem applyCurDir_environ (rt : RuntimeOpts) (w : World) :
    (applyCurDir rt w).environ = w.environ := by
  unfold applyCurDir
  rcases rt.curDir with _ | d <;> rfl

theorem applyCurDir_existing (rt : RuntimeOpts) (w : World) :
    (applyCurDir rt w).existing = w.existing := by
  unfold applyCurDir
  rcases rt.curDir with _ | d <;> rfl

theorem applyCurDir_events (rt : RuntimeOpts) (w : World) :
    (applyCurDir rt w).events = w.events := by
  unfold applyCurDir
  rcases rt.curDir with _ | d <;> rfl

theorem mkOutputDirs_environ (envd : SosDict) (w : World) :
    (mkOutputDirs envd w).environ = w.environ := by
  unfold mkOutputDirs
  rcases envd.output with _ | (_ | _) <;> rfl

theorem mkOutputDirs_events (envd : SosDict) (w : World) :
    (mkOutputDirs envd w).events = w.events := by
  unfold mkOutputDirs
  rcases envd.output with _ | (_ | _) <;> rfl

theorem applyWorkdir_environ (rt : RuntimeOpts) (w : World) :
    (applyWorkdir rt w).environ = w.environ := by
  unfold applyWorkdir
  rcases rt.workdir with _ | d <;> rfl

theorem applyWorkdir_events (rt : RuntimeOpts) (w : World) :
    (applyWorkdir rt w).events = w.events := by
  unfold applyWorkdir
  rcases rt.workdir with _ | d <;> rfl

theorem handleExc_cwd (tid : String) (e : PyExc) (w : World) :
    (handleExc tid e w).2.cwd = w.cwd := by
  cases e with
  | stopSig msg => cases msg <;> rfl
  | kbInterrupt => rfl
  | cpe rc stderr => rfl
  | generic cls detail => rfl

theorem handleExc_events (tid : String) (e : PyExc) (w : World) :
    (handleExc tid e w).2.events = w.events := by
  cases e with
  | stopSig msg => cases msg <;> rfl
  | kbInterrupt => rfl
  | cpe rc stderr => rfl
  | generic cls detail => rfl

/-- Every branch of `runFrom` ends in the finally block's restoration, so
the final working directory is the one captured at line 400, right after
the `cur_dir` step. -/
theorem afterTry_cwd (cfg : TaskConfig) (orl : Oracle) (fp : Option String)
    (orig : SosDict) (origDir : String) (r : Except PyExc SosDict × World) :
    (afterTry cfg orl fp orig origDir r).2.cwd = origDir := by
  rcases r with ⟨res, w2⟩
  cases res with
  | error e =>
    show (handleExc cfg.taskId e { w2 with cwd := origDir }).2.cwd = origDir
    rw [handleExc_cwd]
  | ok envd2 => cases fp <;> rfl

theorem afterTry_events (cfg : TaskConfig) (orl : Oracle) (fp : Option String)
    (orig : SosDict) (origDir : String) (r : Except PyExc SosDict × World) :
    (afterTry cfg orl fp orig origDir r).2.events = r.2.events := by
  rcases r with ⟨res, w2⟩
  cases res with
  | error e =>
    show (handleExc cfg.taskId e { w2 with cwd := origDir }).2.events = w2.events
    rw [handleExc_events]
  | ok envd2 => cases fp <;> rfl

/-- Every branch of `runFrom` ends in the finally block restoration, so
the final working directory is the one captured at line 400, right after
the `cur_dir` step. -/
theorem runFrom_cwd (cfg : TaskConfig) (orl : Oracle) (fp : Option String)
    (envd : SosDict) (w : World) :
    (runFrom cfg orl fp envd w).2.cwd = (applyCurDir cfg.runtime w).cwd := by
  have hred : runFrom cfg orl fp envd w
      = afterTry cfg orl fp
          (if cfg.subtask then cfg.sosDict
           else { cfg.sosDict with startTime := some w.clock })
          (applyCurDir cfg.runtime w).cwd
          (runTry cfg orl envd
            (if cfg.subtask then cfg.sosDict
             else { cfg.sosDict with startTime := some w.clock })
            (applyCurDir cfg.runtime w)) := rfl
  rw [hred, afterTry_cwd]

/-- Claim C4 (amended): on every outcome path the working directory at
return equals the directory in effect after the `cur_dir` staging step -
the configured `cur_dir` when one is set, else the pre-staging directory -
and on paths that never enter the try block (skip, assert mismatch,
unrecognized mode) it is untouched.  The `workdir` change is always
undone; the `cur_dir` change is not. -/
theorem final_cwd_characterization (cfg : TaskConfig) (orl : Oracle) (w : World) :
    (_execute_task cfg orl w).2.cwd =
      if entersTry cfg orl = true then (applyCurDir cfg.runtime w).cwd else w.cwd := by
  unfold _execute_task entersTry
  by_cases hm : cfg.sigMode = "ignore"
  · rw [if_pos hm, if_pos hm, if_pos rfl, runFrom_cwd, applyCurDir_cwd, applyCurDir_cwd]
  · rw [if_neg hm, if_neg hm]
    rcases hcd : cacheDecide cfg orl with m | _ | _ | msg
    · simp only [hcd]
      rfl
    · simp only [hcd]
      rfl
    · simp [hcd, runFrom_cwd, applyCurDir_cwd, decisionProceeds]
    · simp only [hcd]
      rfl

/-- The try block emits the precondition-verification marker first and the
body-execution marker after it (when the body is reached at all). -/
theorem classifyBody_events (envd : SosDict) (ctxA : Ctx) (w : World) (b : BodyOutcome) :
    (classifyBody envd ctxA w b).2.events = w.events := by
  cases b <;> rfl

theorem afterEnvOps_events (orl : Oracle) (envd : SosDict) (w : World)
    (r : Except PyExc (List (String × String))) (en1 : List (String × String)) :
    (afterEnvOps orl envd w r en1).2.events = w.events
    ∨ (afterEnvOps orl envd w r en1).2.events = w.events ++ [Event.execBody] := by
  cases r with
  | error e => left; rfl
  | ok en2 =>
    right
    show (classifyBody envd orl.ctxAfter
      { w with environ := en2, events := w.events ++ [Event.execBody] } orl.body).2.events = _
    rw [classifyBody_events]

theorem afterPrecond_events (cfg : TaskConfig) (orl : Oracle) (envd : SosDict)
    (w : World) (fm : Option Target) :
    (afterPrecond cfg orl envd w fm).2.events = w.events
    ∨ (afterPrecond cfg orl envd w fm).2.events = w.events ++ [Event.execBody] := by
  cases fm with
  | some t => left; rfl
  | none =>
    have hred : afterPrecond cfg orl envd w none
        = afterEnvOps orl envd (applyWorkdir cfg.runtime (mkOutputDirs envd w))
            (applyPrepend cfg.runtime (applyOverrides cfg.runtime
              (applyWorkdir cfg.runtime (mkOutputDirs envd w)).environ))
            (applyOverrides cfg.runtime
              (applyWorkdir cfg.runtime (mkOutputDirs envd w)).environ) := rfl
    rw [hred]
    rcases afterEnvOps_events orl envd (applyWorkdir cfg.runtime (mkOutputDirs envd w))
        (applyPrepend cfg.runtime (applyOverrides cfg.runtime
          (applyWorkdir cfg.runtime (mkOutputDirs envd w)).environ))
        (applyOverrides cfg.runtime
          (applyWorkdir cfg.runtime (mkOutputDirs envd w)).environ) with h | h
    · left
      rw [h, applyWorkdir_events, mkOutputDirs_events]
    · right
      rw [h, applyWorkdir_events, mkOutputDirs_events]

theorem runTry_events (cfg : TaskConfig) (orl : Oracle) (envd orig : SosDict) (w : World) :
    (runTry cfg orl envd orig w).2.events = w.events ++ [Event.verifyPrecond]
    ∨ (runTry cfg orl envd orig w).2.events
        = w.events ++ [Event.verifyPrecond, Event.execBody] := by
  have hred : runTry cfg orl envd orig w
      = afterPrecond cfg orl envd { w with events := w.events ++ [Event.verifyPrecond] }
          (firstMissing orig w.existing) := rfl
  rw [hred]
  rcases afterPrecond_events cfg orl envd
      { w with events := w.events ++ [Event.verifyPrecond] }
      (firstMissing orig w.existing) with h | h
  · left
    rw [h]
  · right
    rw [h]
    simp

/-- Lifting `runTry_events` through `runFrom`: the finally block, the
signature write/release, and the exception handlers add no phase
markers. -/
theorem runFrom_events (cfg : TaskConfig) (orl : Oracle) (fp : Option String)
    (envd : SosDict) (w : World) :
    (runFrom cfg orl fp envd w).2.events = w.events ++ [Event.verifyPrecond]
    ∨ (runFrom cfg orl fp envd w).2.events
        = w.events ++ [Event.verifyPrecond, Event.execBody] := by
  have hred : runFrom cfg orl fp envd w
      = afterTry cfg orl fp
          (if cfg.subtask then cfg.sosDict
           else { cfg.sosDict with startTime := some w.clock })
          (applyCurDir cfg.runtime w).cwd
          (runTry cfg orl envd
            (if cfg.subtask then cfg.sosDict
             else { cfg.sosDict with startTime := some w.clock })
            (applyCurDir cfg.runtime w)) := rfl
  rw [hred, afterTry_events]
  have hev := runTry_events cfg orl envd
      (if cfg.subtask then cfg.sosDict
       else { cfg.sosDict with startTime := some w.clock })
      (applyCurDir cfg.runtime w)
  rw [applyCurDir_events] at hev
  exact hev

/-- Claim C2 (amended): for every non-master invocation in a non-ignore
mode that reaches the try block, the caching decision (fingerprint
computation and store consultation, lines 320-374) comes first, then
precondition verification (lines 402-417), and the body execution (line
464), when reached, comes after both - i.e. the spec's order of
verification and caching is swapped in the code. -/
theorem caching_then_precondition_then_body
    (cfg : TaskConfig) (orl : Oracle) (w : World)
    (hm : cfg.sigMode ≠ "ignore") (ht : entersTry cfg orl = true) :
    idxOf Event.cacheDecision (_execute_task cfg orl { w with events := [] }).2.events
      < idxOf Event.verifyPrecond (_execute_task cfg orl { w with events := [] }).2.events
    ∧ (Event.execBody ∈ (_execute_task cfg orl { w with events := [] }).2.events →
        idxOf Event.verifyPrecond (_execute_task cfg orl { w with events := [] }).2.events
          < idxOf Event.execBody (_execute_task cfg orl { w with events := [] }).2.events) := by
  unfold entersTry at ht
  rw [if_neg hm] at ht
  rcases hcd : cacheDecide cfg orl with m | _ | _ | msg <;> rw [hcd] at ht
  case skip => simp [decisionProceeds] at ht
  case skipBuild => simp [decisionProceeds] at ht
  case raiseErr => simp [decisionProceeds] at ht
  case proceed =>
    have hred : _execute_task cfg orl { w with events := [] }
        = (if cfg.sigMode = "ignore" then
            runFrom cfg orl none cfg.sosDict { w with events := [Event.stageEnv] }
          else
            match cacheDecide cfg orl with
            | .raiseErr msg =>
              (.error (.generic "RuntimeError" msg),
               { w with lockedFps := fingerprint cfg.task :: w.lockedFps,
                        events := [Event.stageEnv, Event.cacheDecision] })
            | .skip m =>
              (wrapCollect (collect_task_result cfg.taskId (applyAdopt cfg.sosDict m)
                cfg.sosDict cfg.runtime orl w.clock true),
               { w with lockedFps := fingerprint cfg.task :: w.lockedFps,
                        events := [Event.stageEnv, Event.cacheDecision] })
            | .skipBuild =>
              (wrapCollect (collect_task_result cfg.taskId cfg.sosDict cfg.sosDict
                cfg.runtime orl w.clock true),
               { w with lockedFps := fingerprint cfg.task :: w.lockedFps,
                        written := fingerprint cfg.task :: w.written,
                        events := [Event.stageEnv, Event.cacheDecision] })
            | .proceed =>
              runFrom cfg orl (some (fingerprint cfg.task)) cfg.sosDict
                { w with lockedFps := fingerprint cfg.task :: w.lockedFps,
                         events := [Event.stageEnv, Event.cacheDecision] }) := rfl
    rw [hred, if_neg hm, hcd]
    rcases runFrom_events cfg orl (some (fingerprint cfg.task)) cfg.sosDict
        { w with lockedFps := fingerprint cfg.task :: w.lockedFps,
                 events := [Event.stageEnv, Event.cacheDecision] } with h | h
    · rw [h]
      dsimp only
      exact ⟨by decide, fun hmem => by simp at hmem⟩
    · rw [h]
      dsimp only
      exact ⟨by decide, fun _ => by decide⟩

theorem caching_then_precondition_then_body_witness :
    idxOf Event.cacheDecision
        (_execute_task cfgOrder orlMismatch { ({} : World) with events := [] }).2.events
      < idxOf Event.verifyPrecond
        (_execute_task cfgOrder orlMismatch { ({} : World) with events := [] }).2.events
    ∧ idxOf Event.verifyPrecond
        (_execute_task cfgOrder orlMismatch { ({} : World) with events := [] }).2.events
      < idxOf Event.execBody
        (_execute_task cfgOrder orlMismatch { ({} : World) with events := [] }).2.events :=
  ⟨(caching_then_precondition_then_body cfgOrder orlMismatch {} (by decide) rfl).1,
   (caching_then_precondition_then_body cfgOrder orlMismatch {} (by decide) rfl).2
     (by
       have hev : (_execute_task cfgOrder orlMismatch
           { ({} : World) with events := [] }).2.events
           = [Event.stageEnv, Event.cacheDecision, Event.verifyPrecond, Event.execBody] := rfl
       rw [hev]
       simp)⟩

/-- Claim C6 (amended): the `sos_run` guard lives in the step-signature
path: in `default` and `build` modes, `validate_step_sig` returns the
empty dict without consulting `sig.validate()` (second component `false`)
whenever the signature-relevant variables contain `sos_run`, so such a
step is never skipped or adopted from the cache; the task-execution path
of `_execute_task` performs no such check and can validate and skip the
task. -/
theorem step_sig_sos_run_not_validated (sigVars : List String) (orl : Oracle)
    (h : sigVars.contains "sos_run" = true) :
    validate_step_sig "default" sigVars orl = (.proceed, false)
    ∧ validate_step_sig "build" sigVars orl = (.proceed, false) := by
  have h2 : "sos_run" ∈ sigVars := by simpa using h
  constructor <;> simp [validate_step_sig, h2]

theorem step_sig_sos_run_not_validated_witness :
    validate_step_sig "default" ["sos_run"] orlMatched = (.proceed, false)
    ∧ validate_step_sig "build" ["sos_run"] orlMatched = (.proceed, false) :=
  step_sig_sos_run_not_validated ["sos_run"] orlMatched (by decide)

/-- When every precondition target exists, the environment steps succeed,
and the body raises the stop signal, the try block reports exactly that
stop signal. -/
theorem runTry_stop (cfg : TaskConfig) (orl : Oracle) (envd orig : SosDict) (w : World)
    (msg : Option String)
    (hb : orl.body = .stop msg)
    (hpre : firstMissing orig w.existing = none)
    (hpp : ∃ en2, applyPrepend cfg.runtime (applyOverrides cfg.runtime w.environ)
             = .ok en2) :
    ∃ w2, runTry cfg orl envd orig w = (.error (.stopSig msg), w2) := by
  obtain ⟨en2, hen⟩ := hpp
  have hred : runTry cfg orl envd orig w
      = afterPrecond cfg orl envd { w with events := w.events ++ [Event.verifyPrecond] }
          (firstMissing orig w.existing) := rfl
  rw [hred, hpre]
  have hWe : (applyWorkdir cfg.runtime (mkOutputDirs envd
      { w with events := w.events ++ [Event.verifyPrecond] })).environ = w.environ := by
    rw [applyWorkdir_environ, mkOutputDirs_environ]
  have hred2 : afterPrecond cfg orl envd
      { w with events := w.events ++ [Event.verifyPrecond] } none
      = afterEnvOps orl envd
          (applyWorkdir cfg.runtime (mkOutputDirs envd
            { w with events := w.events ++ [Event.verifyPrecond] }))
          (applyPrepend cfg.runtime (applyOverrides cfg.runtime
            (applyWorkdir cfg.runtime (mkOutputDirs envd
              { w with events := w.events ++ [Event.verifyPrecond] })).environ))
          (applyOverrides cfg.runtime
            (applyWorkdir cfg.runtime (mkOutputDirs envd
              { w with events := w.events ++ [Event.verifyPrecond] })).environ) := rfl
  rw [hred2, hWe, hen]
  have hred3 : afterEnvOps orl envd
      (applyWorkdir cfg.runtime (mkOutputDirs envd
        { w with events := w.events ++ [Event.verifyPrecond] }))
      (.ok en2) (applyOverrides cfg.runtime w.environ)
      = classifyBody envd orl.ctxAfter
          { applyWorkdir cfg.runtime (mkOutputDirs envd
              { w with events := w.events ++ [Event.verifyPrecond] }) with
            environ := en2,
            events := (applyWorkdir cfg.runtime (mkOutputDirs envd
              { w with events := w.events ++ [Event.verifyPrecond] })).events
              ++ [Event.execBody] }
          orl.body := rfl
  rw [hred3, hb]
  exact ⟨_, rfl⟩

/-- Lifting `runTry_stop` through `runFrom`: the stop handler of lines
471-476 returns the stop result and logs the message. -/
theorem runFrom_stop (cfg : TaskConfig) (orl : Oracle) (fp : Option String)
    (envd : SosDict) (w : World) (msg : Option String)
    (hb : orl.body = .stop msg)
    (hpre : firstMissing cfg.sosDict w.existing = none)
    (hpp : ∃ en2, applyPrepend cfg.runtime (applyOverrides cfg.runtime w.environ)
             = .ok en2) :
    (runFrom cfg orl fp envd w).1 = .ok (stopResult cfg.taskId)
    ∧ ∀ s, msg = some s →
        (cfg.taskId ++ " stopped: " ++ s) ∈ (runFrom cfg orl fp envd w).2.log := by
  have hpre2 : firstMissing
      (if cfg.subtask then cfg.sosDict
       else { cfg.sosDict with startTime := some w.clock })
      (applyCurDir cfg.runtime w).existing = none := by
    cases cfg.subtask
    · show firstMissing { cfg.sosDict with startTime := some w.clock }
          (applyCurDir cfg.runtime w).existing = none
      rw [applyCurDir_existing]
      exact hpre
    · show firstMissing cfg.sosDict (applyCurDir cfg.runtime w).existing = none
      rw [applyCurDir_existing]
      exact hpre
  have hpp2 : ∃ en2, applyPrepend cfg.runtime
      (applyOverrides cfg.runtime (applyCurDir cfg.runtime w).environ) = .ok en2 := by
    rw [applyCurDir_environ]
    exact hpp
  obtain ⟨w2, hrt⟩ := runTry_stop cfg orl envd
    (if cfg.subtask then cfg.sosDict
     else { cfg.sosDict with startTime := some w.clock })
    (applyCurDir cfg.runtime w) msg hb hpre2 hpp2
  have hred : runFrom cfg orl fp envd w
      = afterTry cfg orl fp
          (if cfg.subtask then cfg.sosDict
           else { cfg.sosDict with startTime := some w.clock })
          (applyCurDir cfg.runtime w).cwd
          (runTry cfg orl envd
            (if cfg.subtask then cfg.sosDict
             else { cfg.sosDict with startTime := some w.clock })
            (applyCurDir cfg.runtime w)) := rfl
  rw [hred, hrt]
  show (handleExc cfg.taskId (.stopSig msg)
      { w2 with cwd := (applyCurDir cfg.runtime w).cwd }).1 = .ok (stopResult cfg.taskId)
    ∧ ∀ s, msg = some s → (cfg.taskId ++ " stopped: " ++ s) ∈ (handleExc cfg.taskId
      (.stopSig msg) { w2 with cwd := (applyCurDir cfg.runtime w).cwd }).2.log
  cases msg with
  | none =>
    refine ⟨rfl, ?_⟩
    intro s hs
    exact absurd hs (by simp)
  | some s0 =>
    refine ⟨rfl, ?_⟩
    intro s hs
    have hs0 : s = s0 := by
      injection hs.symm
    subst hs0
    show (cfg.taskId ++ " stopped: " ++ s) ∈ w2.log ++ [cfg.taskId ++ " stopped: " ++ s]
    simp

/-- Claim C8: every task whose body raises the cooperative stop signal
(and which reaches the body: the run enters the try block, preconditions
hold, and the environment steps succeed) returns the success result of
lines 471-476 - return code 0, empty input/output/depends lists, empty
shared map, no exception payload - and the stop message, when present, is
logged. -/
theorem stop_signal_yields_success
    (cfg : TaskConfig) (orl : Oracle) (w : World) (msg : Option String)
    (hb : orl.body = .stop msg)
    (ht : entersTry cfg orl = true)
    (hpre : firstMissing cfg.sosDict w.existing = none)
    (hpp : ∃ en2, applyPrepend cfg.runtime (applyOverrides cfg.runtime w.environ)
             = .ok en2) :
    (_execute_task cfg orl w).1 = .ok (stopResult cfg.taskId)
    ∧ (stopResult cfg.taskId).ret_code = 0
    ∧ (stopResult cfg.taskId).exception = none
    ∧ (stopResult cfg.taskId).shared = some []
    ∧ ∀ s, msg = some s →
        (cfg.taskId ++ " stopped: " ++ s) ∈ (_execute_task cfg orl w).2.log := by
  by_cases hm : cfg.sigMode = "ignore"
  · have hred : _execute_task cfg orl w
        = runFrom cfg orl none cfg.sosDict { w with events := w.events ++ [Event.stageEnv] } := by
      unfold _execute_task
      rw [if_pos hm]
    rw [hred]
    have h := runFrom_stop cfg orl none cfg.sosDict
      { w with events := w.events ++ [Event.stageEnv] } msg hb hpre hpp
    exact ⟨h.1, rfl, rfl, rfl, h.2⟩
  · unfold entersTry at ht
    rw [if_neg hm] at ht
    rcases hcd : cacheDecide cfg orl with m | _ | _ | emsg <;> rw [hcd] at ht
    · simp [decisionProceeds] at ht
    · simp [decisionProceeds] at ht
    · have hred : _execute_task cfg orl w
          = runFrom cfg orl (some (fingerprint cfg.task)) cfg.sosDict
              { w with lockedFps := fingerprint cfg.task :: w.lockedFps,
                       events := (w.events ++ [Event.stageEnv]) ++ [Event.cacheDecision] } := by
        unfold _execute_task
        rw [if_neg hm, hcd]
      rw [hred]
      have h := runFrom_stop cfg orl (some (fingerprint cfg.task)) cfg.sosDict
        { w with lockedFps := fingerprint cfg.task :: w.lockedFps,
                 events := (w.events ++ [Event.stageEnv]) ++ [Event.cacheDecision] }
        msg hb hpre hpp
      exact ⟨h.1, rfl, rfl, rfl, h.2⟩
    · simp [decisionProceeds] at ht

def cfgStopW : TaskConfig := { taskId := "w8", sigMode := "ignore" }

def orlStopW : Oracle := { body := .stop (some "halt now") }

theorem stop_signal_yields_success_witness :
    (_execute_task cfgStopW orlStopW {}).1 = .ok (stopResult "w8")
    ∧ ("w8" ++ " stopped: " ++ "halt now") ∈ (_execute_task cfgStopW orlStopW {}).2.log :=
  ⟨(stop_signal_yields_success cfgStopW orlStopW {} (some "halt now")
      rfl rfl rfl ⟨[], rfl⟩).1,
   (stop_signal_yields_success cfgStopW orlStopW {} (some "halt now")
      rfl rfl rfl ⟨[], rfl⟩).2.2.2.2 "halt now" rfl⟩

/-! ## Claim C7: the aggregate skip flag -/

theorem masterAggStep_skipped (acc acc2 : MasterResult) (p : String × TaskResult)
    (h : masterAggStep acc p = .ok acc2) :
    p.2.skipped = some acc2.skipped := by
  unfold masterAggStep at h
  rcases ho : p.2.output with _ | o <;> rw [ho] at h
  · simp at h
  · rcases hs : p.2.shared with _ | sh <;> rw [hs] at h
    · simp at h
    · rcases hk : p.2.skipped with _ | sk <;> rw [hk] at h
      · simp at h
      · have h2 : ({ ret_code := acc.ret_code + p.2.ret_code,
                     output := updateOutputField acc.output o,
                     subtasks := acc.subtasks ++ [(p.1, p.2)],
                     shared := updateAll acc.shared sh,
                     skipped := sk } : MasterResult) = acc2 := Except.ok.inj h
        rw [← h2]

theorem masterAggregate_last_skipped (l : List (String × TaskResult)) :
    ∀ (acc m : MasterResult) (p : String × TaskResult),
      masterAggregate acc l = .ok m → l.getLast? = some p →
      p.2.skipped = some m.skipped := by
  induction l with
  | nil =>
    intro acc m p hagg hlast
    simp at hlast
  | cons q rest ih =>
    intro acc m p hagg hlast
    rw [show masterAggregate acc (q :: rest)
        = (match masterAggStep acc q with
           | .error e => .error e
           | .ok acc2 => masterAggregate acc2 rest) from rfl] at hagg
    rcases hstep : masterAggStep acc q with e | acc2 <;> rw [hstep] at hagg
    · simp at hagg
    · simp only [] at hagg
      cases rest with
      | nil =>
        have hm : acc2 = m := Except.ok.inj hagg
        have hp : q = p := Option.some.inj hlast
        rw [← hp, ← hm]
        exact masterAggStep_skipped acc acc2 q hstep
      | cons r rest2 =>
        rw [List.getLast?_cons_cons] at hlast
        exact ih acc2 m p hagg hlast

theorem zip_getLast (xs : List String) (ys : List TaskResult) (y : TaskResult)
    (hlen : xs.length = ys.length) (hy : ys.getLast? = some y) :
    ∃ x, (xs.zip ys).getLast? = some (x, y) := by
  induction ys generalizing xs with
  | nil => simp at hy
  | cons b ys2 ih =>
    cases xs with
    | nil => simp at hlen
    | cons a xs2 =>
      cases ys2 with
      | nil =>
        cases xs2 with
        | nil =>
          have hb : b = y := Option.some.inj hy
          subst hb
          exact ⟨a, rfl⟩
        | cons c xs3 => simp at hlen
      | cons b2 ys3 =>
        cases xs2 with
        | nil => simp at hlen
        | cons a2 xs3 =>
          have hlen2 : (a2 :: xs3).length = (b2 :: ys3).length := by
            simpa using hlen
          have hy2 : (b2 :: ys3).getLast? = some y := by
            rw [List.getLast?_cons_cons] at hy
            exact hy
          obtain ⟨x, hx⟩ := ih (a2 :: xs3) hlen2 hy2
          refine ⟨x, ?_⟩
          show ((a, b) :: ((a2 :: xs3).zip (b2 :: ys3))).getLast? = some (x, y)
          rw [show ((a2 :: xs3).zip (b2 :: ys3)) = (a2, b2) :: (xs3.zip ys3) from rfl,
              List.getLast?_cons_cons,
              show ((a2, b2) :: (xs3.zip ys3)) = ((a2 :: xs3).zip (b2 :: ys3)) from rfl]
          exact hx

/-- Claim C7: when the master aggregation completes (so no sub-task result
carried an exception and every aggregation key was present), the master
result's skip flag equals the skip flag of the last sub-task in stack
order, overwriting every earlier sub-task's flag (line 243). -/
theorem master_skipped_equals_last_subtask
    (tid : String) (stack : List String) (results : List TaskResult)
    (r : TaskResult) (m : MasterResult)
    (hlen : stack.length = results.length)
    (hlast : results.getLast? = some r)
    (hagg : masterCollect tid stack results = .ok (.aggregated m)) :
    r.skipped = some m.skipped := by
  unfold masterCollect at hagg
  rcases hfind : results.find? (fun x => x.exception.isSome) with _ | x <;>
    rw [hfind] at hagg
  · rcases hma : masterAggregate masterInit (stack.zip results) with e | m2 <;>
      rw [hma] at hagg
    · simp at hagg
    · have hm2 : m2 = m := by
        have := Except.ok.inj hagg
        exact MasterOutcome.aggregated.inj this
      subst hm2
      obtain ⟨s, hzl⟩ := zip_getLast stack results r hlen hlast
      exact masterAggregate_last_skipped (stack.zip results) masterInit m2 (s, r) hma hzl
  · simp at hagg

def aggOkRes2 : TaskResult :=
  { ret_code := 0, task := "sub2", output := some (.digests []),
    shared := some [], skipped := some false }

/-- The aggregate the two sample results fold into. -/
def aggSampleMaster : MasterResult :=
  { ret_code := 0, output := [], skipped := false,
    subtasks := [("sub1", aggOkRes), ("sub2", aggOkRes2)], shared := [] }

theorem master_skipped_equals_last_subtask_witness :
    aggOkRes2.skipped = some aggSampleMaster.skipped :=
  master_skipped_equals_last_subtask "mw" ["sub1", "sub2"] [aggOkRes, aggOkRes2]
    aggOkRes2 aggSampleMaster rfl rfl rfl

/-! ## Dictionary lemmas for the shared-variable claim -/

theorem lookupKey_setKey_self {β : Type} (l : List (String × β)) (k : String) (v : β) :
    lookupKey (setKey l k v) k = some v := by
  induction l with
  | nil => simp [setKey, lookupKey]
  | cons p rest ih =>
    obtain ⟨k2, v2⟩ := p
    by_cases h : k2 = k
    · subst h
      simp [setKey, lookupKey]
    · simp [setKey, lookupKey, h, ih]

theorem lookupKey_setKey_ne {β : Type} (l : List (String × β)) (k k2 : String) (v : β)
    (hne : k2 ≠ k) : lookupKey (setKey l k v) k2 = lookupKey l k2 := by
  have hne2 : ¬ (k = k2) := fun h => hne h.symm
  induction l with
  | nil => simp [setKey, lookupKey, hne2]
  | cons p rest ih =>
    obtain ⟨k3, v3⟩ := p
    by_cases h : k3 = k
    · subst h
      simp [setKey, lookupKey, hne2]
    · simp [setKey, lookupKey, h, ih]

theorem ctxHas_setKey_self (ctx : Ctx) (k v : String) :
    ctxHas (setKey ctx k v) k = true := by
  unfold ctxHas
  rw [lookupKey_setKey_self]
  rfl

theorem ctxHas_setKey_ne (ctx : Ctx) (k k2 v : String) (hne : k2 ≠ k) :
    ctxHas (setKey ctx k v) k2 = ctxHas ctx k2 := by
  unfold ctxHas
  rw [lookupKey_setKey_ne _ _ _ _ hne]

theorem ctxHas_setKey_mono (ctx : Ctx) (k k2 v : String) (h : ctxHas ctx k2 = true) :
    ctxHas (setKey ctx k v) k2 = true := by
  by_cases he : k2 = k
  · subst he
    exact ctxHas_setKey_self ctx k2 v
  · rw [ctxHas_setKey_ne ctx k k2 v he]
    exact h

theorem ctxHas_setKey_false (ctx : Ctx) (k k2 v : String)
    (h : ctxHas (setKey ctx k v) k2 = false) : ctxHas ctx k2 = false := by
  cases h2 : ctxHas ctx k2
  · rfl
  · rw [ctxHas_setKey_mono ctx k k2 v h2] at h
    cases h

theorem entryLookupNames_cons (var val : String) (rest : List (String × String)) :
    entryLookupNames ((var, val) :: rest)
      = if var = val then var :: entryLookupNames rest else entryLookupNames rest := by
  unfold entryLookupNames
  by_cases h : var = val <;> simp [h]

theorem entryAssignedNames_cons (var val : String) (rest : List (String × String)) :
    entryAssignedNames ((var, val) :: rest)
      = if var = val then entryAssignedNames rest else var :: entryAssignedNames rest := by
  unfold entryAssignedNames
  by_cases h : var = val <;> simp [h]

theorem entryLookupNames_mem (m : List (String × String)) (n : String)
    (h : n ∈ entryLookupNames m) : (n, n) ∈ m := by
  unfold entryLookupNames at h
  rcases List.mem_map.mp h with ⟨p, hp, hn⟩
  rcases List.mem_filter.mp hp with ⟨hm, heq⟩
  obtain ⟨a, b⟩ := p
  have h1 : a = b := by simpa using heq
  have h2 : a = n := by simpa using hn
  subst h2
  rw [← h1] at hm
  exact hm

theorem ctxHas_setKey_cases (ctx : Ctx) (a k v : String)
    (h : ctxHas (setKey ctx a v) k = true) : k = a ∨ ctxHas ctx k = true := by
  by_cases he : k = a
  · left
    exact he
  · right
    rw [ctxHas_setKey_ne ctx a k v he] at h
    exact h

theorem collectMapEntries_error (tid : String) (evalFn : String → String)
    (m : List (String × String)) :
    ∀ (ctx : Ctx) (acc : List (String × String)) (e : CollectErr),
      collectMapEntries tid evalFn m ctx acc = .error e →
      ∃ v, e = .unavailable v tid ∧ v ∈ entryLookupNames m ∧ ctxHas ctx v = false := by
  induction m with
  | nil =>
    intro ctx acc e h
    simp [collectMapEntries] at h
  | cons p rest ih =>
    intro ctx acc e h
    obtain ⟨var, val⟩ := p
    rw [show collectMapEntries tid evalFn ((var, val) :: rest) ctx acc
        = (if var = val then
             if ctxHas ctx var then
               collectMapEntries tid evalFn rest ctx (setKey acc var (ctxGet ctx var))
             else .error (.unavailable var tid)
           else
             if ctxHas (setKey ctx var (evalFn val)) var then
               collectMapEntries tid evalFn rest (setKey ctx var (evalFn val))
                 (setKey acc var (ctxGet (setKey ctx var (evalFn val)) var))
             else .error (.unavailable var tid)) from rfl] at h
    by_cases hvv : var = val
    · rw [if_pos hvv] at h
      cases hhas : ctxHas ctx var with
      | false =>
        rw [hhas, if_neg (by decide)] at h
        have he := Except.error.inj h
        refine ⟨var, he.symm, ?_, hhas⟩
        rw [entryLookupNames_cons, if_pos hvv]
        exact List.mem_cons_self _ _
      | true =>
        rw [hhas, if_pos rfl] at h
        obtain ⟨v, he, hmem, hfalse⟩ := ih ctx _ e h
        refine ⟨v, he, ?_, hfalse⟩
        rw [entryLookupNames_cons, if_pos hvv]
        exact List.mem_cons_of_mem _ hmem
    · rw [if_neg hvv, ctxHas_setKey_self, if_pos rfl] at h
      obtain ⟨v, he, hmem, hfalse⟩ := ih (setKey ctx var (evalFn val)) _ e h
      refine ⟨v, he, ?_, ctxHas_setKey_false ctx var v (evalFn val) hfalse⟩
      rw [entryLookupNames_cons, if_neg hvv]
      exact hmem

theorem collectMapEntries_mono (tid : String) (evalFn : String → String)
    (m : List (String × String)) :
    ∀ (ctx : Ctx) (acc : List (String × String)) (ctx2 : Ctx)
      (acc2 : List (String × String)),
      collectMapEntries tid evalFn m ctx acc = .ok (ctx2, acc2) →
      ∀ k, ctxHas ctx k = true → ctxHas ctx2 k = true := by
  induction m with
  | nil =>
    intro ctx acc ctx2 acc2 h k hk
    have h2 := Except.ok.inj h
    injection h2 with h3 h4
    rw [← h3]
    exact hk
  | cons p rest ih =>
    intro ctx acc ctx2 acc2 h k hk
    obtain ⟨var, val⟩ := p
    rw [show collectMapEntries tid evalFn ((var, val) :: rest) ctx acc
        = (if var = val then
             if ctxHas ctx var then
               collectMapEntries tid evalFn rest ctx (setKey acc var (ctxGet ctx var))
             else .error (.unavailable var tid)
           else
             if ctxHas (setKey ctx var (evalFn val)) var then
               collectMapEntries tid evalFn rest (setKey ctx var (evalFn val))
                 (setKey acc var (ctxGet (setKey ctx var (evalFn val)) var))
             else .error (.unavailable var tid)) from rfl] at h
    by_cases hvv : var = val
    · rw [if_pos hvv] at h
      cases hhas : ctxHas ctx var with
      | false =>
        rw [hhas, if_neg (by decide)] at h
        simp at h
      | true =>
        rw [hhas, if_pos rfl] at h
        exact ih ctx _ ctx2 acc2 h k hk
    · rw [if_neg hvv, ctxHas_setKey_self, if_pos rfl] at h
      exact ih (setKey ctx var (evalFn val)) _ ctx2 acc2 h k
        (ctxHas_setKey_mono ctx var k (evalFn val) hk)

theorem collectMapEntries_newkeys (tid : String) (evalFn : String → String)
    (m : List (String × String)) :
    ∀ (ctx : Ctx) (acc : List (String × String)) (ctx2 : Ctx)
      (acc2 : List (String × String)),
      collectMapEntries tid evalFn m ctx acc = .ok (ctx2, acc2) →
      ∀ k, ctxHas ctx2 k = true → ctxHas ctx k = true ∨ k ∈ entryAssignedNames m := by
  induction m with
  | nil =>
    intro ctx acc ctx2 acc2 h k hk
    have h2 := Except.ok.inj h
    injection h2 with h3 h4
    left
    rw [h3]
    exact hk
  | cons p rest ih =>
    intro ctx acc ctx2 acc2 h k hk
    obtain ⟨var, val⟩ := p
    rw [show collectMapEntries tid evalFn ((var, val) :: rest) ctx acc
        = (if var = val then
             if ctxHas ctx var then
               collectMapEntries tid evalFn rest ctx (setKey acc var (ctxGet ctx var))
             else .error (.unavailable var tid)
           else
             if ctxHas (setKey ctx var (evalFn val)) var then
               collectMapEntries tid evalFn rest (setKey ctx var (evalFn val))
                 (setKey acc var (ctxGet (setKey ctx var (evalFn val)) var))
             else .error (.unavailable var tid)) from rfl] at h
    by_cases hvv : var = val
    · rw [if_pos hvv] at h
      cases hhas : ctxHas ctx var with
      | false =>
        rw [hhas, if_neg (by decide)] at h
        simp at h
      | true =>
        rw [hhas, if_pos rfl] at h
        rcases ih ctx _ ctx2 acc2 h k hk with h2 | h2
        · left
          exact h2
        · right
          rw [entryAssignedNames_cons, if_pos hvv]
          exact h2
    · rw [if_neg hvv, ctxHas_setKey_self, if_pos rfl] at h
      rcases ih (setKey ctx var (evalFn val)) _ ctx2 acc2 h k hk with h2 | h2
      · rcases ctxHas_setKey_cases ctx var k (evalFn val) h2 with h3 | h3
        · right
          rw [entryAssignedNames_cons, if_neg hvv, h3]
          exact List.mem_cons_self _ _
        · left
          exact h3
      · right
        rw [entryAssignedNames_cons, if_neg hvv]
        exact List.mem_cons_of_mem _ h2

theorem collectMapEntries_missing (tid : String) (evalFn : String → String)
    (m : List (String × String)) :
    ∀ (ctx : Ctx) (acc : List (String × String)) (n : String),
      (n, n) ∈ m → ctxHas ctx n = false → n ∉ entryAssignedNames m →
      ∃ v, collectMapEntries tid evalFn m ctx acc = .error (.unavailable v tid)
        ∧ v ∈ entryLookupNames m ∧ ctxHas ctx v = false := by
  induction m with
  | nil =>
    intro ctx acc n hn _ _
    simp at hn
  | cons p rest ih =>
    intro ctx acc n hn hmiss hna
    obtain ⟨var, val⟩ := p
    have hred : collectMapEntries tid evalFn ((var, val) :: rest) ctx acc
        = (if var = val then
             if ctxHas ctx var then
               collectMapEntries tid evalFn rest ctx (setKey acc var (ctxGet ctx var))
             else .error (.unavailable var tid)
           else
             if ctxHas (setKey ctx var (evalFn val)) var then
               collectMapEntries tid evalFn rest (setKey ctx var (evalFn val))
                 (setKey acc var (ctxGet (setKey ctx var (evalFn val)) var))
             else .error (.unavailable var tid)) := rfl
    by_cases hvv : var = val
    · have hna2 : n ∉ entryAssignedNames rest := by
        rw [entryAssignedNames_cons, if_pos hvv] at hna
        exact hna
      cases hhas : ctxHas ctx var with
      | false =>
        refine ⟨var, ?_, ?_, hhas⟩
        · rw [hred, if_pos hvv, hhas, if_neg (by decide)]
        · rw [entryLookupNames_cons, if_pos hvv]
          exact List.mem_cons_self _ _
      | true =>
        have hnv : n ≠ var := by
          intro he
          rw [he, hhas] at hmiss
          cases hmiss
        have hn2 : (n, n) ∈ rest := by
          rcases List.mem_cons.mp hn with h | h
          · exfalso
            apply hnv
            injection h with h1 h2
          · exact h
        obtain ⟨v, h1, h2, h3⟩ := ih ctx (setKey acc var (ctxGet ctx var)) n hn2 hmiss hna2
        refine ⟨v, ?_, ?_, h3⟩
        · rw [hred, if_pos hvv, hhas, if_pos rfl]
          exact h1
        · rw [entryLookupNames_cons, if_pos hvv]
          exact List.mem_cons_of_mem _ h2
    · have hnv : n ≠ var := by
        intro he
        apply hna
        rw [entryAssignedNames_cons, if_neg hvv, he]
        exact List.mem_cons_self _ _
      have hna2 : n ∉ entryAssignedNames rest := by
        intro hmem
        apply hna
        rw [entryAssignedNames_cons, if_neg hvv]
        exact List.mem_cons_of_mem _ hmem
      have hn2 : (n, n) ∈ rest := by
        rcases List.mem_cons.mp hn with h | h
        · exfalso
          apply hnv
          injection h with h1 h2
        · exact h
      have hmiss2 : ctxHas (setKey ctx var (evalFn val)) n = false := by
        rw [ctxHas_setKey_ne ctx var n (evalFn val) hnv]
        exact hmiss
      obtain ⟨v, h1, h2, h3⟩ := ih (setKey ctx var (evalFn val)) _ n hn2 hmiss2 hna2
      refine ⟨v, ?_, ?_, ctxHas_setKey_false ctx var v (evalFn val) h3⟩
      · rw [hred, if_neg hvv, ctxHas_setKey_self, if_pos rfl]
        exact h1
      · rw [entryLookupNames_cons, if_neg hvv]
        exact h2

theorem collectSeqItems_missing (tid : String) (evalFn : String → String)
    (items : List SharedItem) :
    ∀ (ctx : Ctx) (acc : List (String × String)) (n : String),
      (∀ it ∈ items, it ≠ SharedItem.invalid) →
      n ∈ (items.map itemLookupNames).flatten →
      ctxHas ctx n = false →
      n ∉ (items.map itemAssignedNames).flatten →
      ∃ v, collectSeqItems tid evalFn items ctx acc = .error (.unavailable v tid)
        ∧ v ∈ (items.map itemLookupNames).flatten ∧ ctxHas ctx v = false := by
  induction items with
  | nil =>
    intro ctx acc n _ hn _ _
    simp at hn
  | cons it rest ih =>
    intro ctx acc n hwf hn hmiss hna
    have hwf2 : ∀ x ∈ rest, x ≠ SharedItem.invalid :=
      fun x hx => hwf x (List.mem_cons_of_mem _ hx)
    cases it with
    | invalid =>
      exact absurd rfl (hwf _ (List.mem_cons_self _ _))
    | str s =>
      have hred : collectSeqItems tid evalFn (.str s :: rest) ctx acc
          = (if ctxHas ctx s then
               collectSeqItems tid evalFn rest ctx (setKey acc s (ctxGet ctx s))
             else .error (.unavailable s tid)) := rfl
      have hnL : n ∈ [s] ++ (rest.map itemLookupNames).flatten := hn
      cases hhas : ctxHas ctx s with
      | false =>
        refine ⟨s, ?_, ?_, hhas⟩
        · rw [hred, hhas, if_neg (by decide)]
        · exact List.mem_append.mpr (Or.inl (List.mem_cons_self _ _))
      | true =>
        have hns : n ≠ s := by
          intro he
          rw [he, hhas] at hmiss
          exact Bool.noConfusion hmiss
        have hn2 : n ∈ (rest.map itemLookupNames).flatten := by
          rcases List.mem_append.mp hnL with h | h
          · exact absurd (List.mem_singleton.mp h) hns
          · exact h
        obtain ⟨v, h1, h2, h3⟩ := ih ctx (setKey acc s (ctxGet ctx s)) n hwf2 hn2 hmiss hna
        refine ⟨v, ?_, ?_, h3⟩
        · rw [hred, hhas, if_pos rfl]
          exact h1
        · exact List.mem_append.mpr (Or.inr h2)
    | map mm =>
      have hred : collectSeqItems tid evalFn (.map mm :: rest) ctx acc
          = (match collectMapEntries tid evalFn mm ctx acc with
             | .error e => .error e
             | .ok (ctx2, acc2) => collectSeqItems tid evalFn rest ctx2 acc2) := rfl
      have hnL : n ∈ entryLookupNames mm ++ (rest.map itemLookupNames).flatten := hn
      have hnaL : n ∉ entryAssignedNames mm ++ (rest.map itemAssignedNames).flatten := hna
      rcases hcm : collectMapEntries tid evalFn mm ctx acc with e | pr
      · obtain ⟨v, he, hvmem, hvfalse⟩ := collectMapEntries_error tid evalFn mm ctx acc e hcm
        refine ⟨v, ?_, ?_, hvfalse⟩
        · rw [hred, hcm, he]
        · exact List.mem_append.mpr (Or.inl hvmem)
      · obtain ⟨ctx2, acc2⟩ := pr
        have hnin : n ∉ entryLookupNames mm := by
          intro hmem
          have hna1 : n ∉ entryAssignedNames mm := fun hm2 =>
            hnaL (List.mem_append.mpr (Or.inl hm2))
          obtain ⟨v, h1, _, _⟩ := collectMapEntries_missing tid evalFn mm ctx acc n
            (entryLookupNames_mem mm n hmem) hmiss hna1
          rw [hcm] at h1
          exact Except.noConfusion h1
        have hn2 : n ∈ (rest.map itemLookupNames).flatten := by
          rcases List.mem_append.mp hnL with h | h
          · exact absurd h hnin
          · exact h
        have hmiss2 : ctxHas ctx2 n = false := by
          cases hc : ctxHas ctx2 n with
          | false => rfl
          | true =>
            rcases collectMapEntries_newkeys tid evalFn mm ctx acc ctx2 acc2 hcm n hc
              with h | h
            · rw [hmiss] at h
              exact Bool.noConfusion h
            · exact absurd (List.mem_append.mpr (Or.inl h)) hnaL
        have hna2 : n ∉ (rest.map itemAssignedNames).flatten := fun hm =>
          hnaL (List.mem_append.mpr (Or.inr hm))
        obtain ⟨v, h1, h2, h3⟩ := ih ctx2 acc2 n hwf2 hn2 hmiss2 hna2
        have h4 : ctxHas ctx v = false := by
          cases hcv : ctxHas ctx v with
          | false => rfl
          | true =>
            have h5 := collectMapEntries_mono tid evalFn mm ctx acc ctx2 acc2 hcm v hcv
            rw [h3] at h5
            exact Bool.noConfusion h5
        refine ⟨v, ?_, ?_, h4⟩
        · rw [hred, hcm]
          exact h1
        · exact List.mem_append.mpr (Or.inr h2)

/-- Claim C5: for every well-formed `shared` option, if some declared
name is absent from the Execution Context after execution - a name the
collection must look up, as opposed to one it computes by evaluating a
declared expression - then result collection fails with an error naming a
missing declared variable.  In particular this holds for the
single-string form: its membership test (line 30) examines the Python
builtin `vars`, which is never a key of the string-keyed dictionary, so
that branch raises - naming the declared variable - whenever the variable
is absent (indeed, always). -/
theorem missing_shared_variable_fails_collection
    (tid : String) (evalFn : String → String) (spec : SharedSpec) (ctx : Ctx)
    (n : String)
    (hwf : specWF spec = true)
    (hn : n ∈ lookupNames spec)
    (hmiss : ctxHas ctx n = false)
    (hna : n ∉ assignedNames spec) :
    ∃ v, collectShared tid evalFn spec ctx = .error (.unavailable v tid)
      ∧ v ∈ lookupNames spec ∧ ctxHas ctx v = false := by
  cases spec with
  | str s =>
    have hns : n = s := List.mem_singleton.mp hn
    subst hns
    exact ⟨n, rfl, hn, hmiss⟩
  | map m =>
    obtain ⟨v, h1, h2, h3⟩ := collectMapEntries_missing tid evalFn m ctx [] n
      (entryLookupNames_mem m n hn) hmiss hna
    refine ⟨v, ?_, h2, h3⟩
    rw [show collectShared tid evalFn (.map m) ctx
        = (match collectMapEntries tid evalFn m ctx [] with
           | .error e => .error e
           | .ok (_, acc) => .ok acc) from rfl, h1]
  | seq items =>
    have hwf2 : ∀ it ∈ items, it ≠ SharedItem.invalid := by
      intro it hit he
      subst he
      exact Bool.noConfusion (List.all_eq_true.mp hwf _ hit)
    exact collectSeqItems_missing tid evalFn items ctx [] n hwf2 hn hmiss hna
  | invalid => simp [specWF] at hwf

theorem missing_shared_variable_fails_collection_witness :
    ∃ v, collectShared "wt" (fun s => s) (.str "x") [] = .error (.unavailable v "wt")
      ∧ v ∈ lookupNames (.str "x") ∧ ctxHas [] v = false :=
  missing_shared_variable_fails_collection "wt" (fun s => s) (.str "x") [] "x"
    rfl (List.mem_cons_self "x" []) rfl (List.not_mem_nil "x")
